import Mathlib

/-!
Formal model of the order-checkout engine (`main.go`, current snapshot).

Conventions of the shallow embedding:
* Go `int` is modelled as `ℤ`; Go's `/` truncates toward zero, modelled by
  `Int.tdiv` (written `goDiv`).
* The Go map `stocks : map[string]*Stock` (key `"productID-warehouseID"`) is
  modelled as a `List Stock` whose list order is the (unspecified) map
  iteration order; the map structure itself guarantees that keys
  `(productID, warehouseID)` are pairwise distinct, which theorems carry as a
  `Nodup` hypothesis.
* The maps `users`, `orders`, `coupons`, `products`, `pointHistories` are only
  looked up by key or inserted at a fresh key, never iterated, so they are
  modelled as lists with `find?` lookup and append/map-update.
* `float64` values appearing in the charge path (`getRankDiscountRate`) are
  modelled exactly: a positive binary64 value is a dyadic rational
  `m / 2 ^ sh` with `2 ^ 52 ≤ m < 2 ^ 53`, and every operation rounds its
  exact rational result to 53 significant bits, round-to-nearest ties-to-even.
-/

/-- Go's integer division truncates toward zero. -/
def goDiv (a b : ℤ) : ℤ := Int.tdiv a b

/-! ## Data model -/

/-- `Stock` (second snapshot of `main.go`): one line per
    (product, warehouse) pair. -/
structure Stock where
  productID   : ℤ
  warehouseID : ℤ
  quantity    : ℤ
deriving DecidableEq

/-- `Coupon`: master data looked up by code (`Description` omitted: it is
    display-only). -/
structure Coupon where
  code   : String
  type   : String
  amount : ℤ
deriving DecidableEq

/-- `Product` restricted to the fields the checkout path reads
    (`Name`/`Category` are display-only). -/
structure ProductRec where
  id    : ℤ
  price : ℤ
deriving DecidableEq

/-- `User` restricted to the fields the checkout path reads and writes. -/
structure UserRec where
  id               : ℤ
  currentPoints    : ℤ
  totalSpentAmount : ℤ
  memberRank       : String
deriving DecidableEq

/-- `PointHistory` (timestamp omitted). -/
structure PointHistory where
  id      : ℤ
  userID  : ℤ
  orderID : ℤ
  type    : String
  amount  : ℤ
  balance : ℤ
deriving DecidableEq

/-- `OrderItem` of a checkout request. -/
structure OrderItem where
  productID : ℤ
  quantity  : ℤ
deriving DecidableEq

/-- `Order` (timestamp omitted). -/
structure OrderRec where
  id             : ℤ
  userID         : ℤ
  items          : List OrderItem
  totalPrice     : ℤ
  shippingFee    : ℤ
  discountAmount : ℤ
  appliedCoupon  : String
  status         : String
  earnedPoints   : ℤ
  usedPoints     : ℤ
  rankDiscount   : ℤ
deriving DecidableEq

/-- The shared in-memory data stores touched by the checkout path. -/
structure AppState where
  products           : List ProductRec
  warehouses         : List ℤ
  stocks             : List Stock
  users              : List UserRec
  orders             : List OrderRec
  pointHistories     : List PointHistory
  coupons            : List Coupon
  nextOrderID        : ℤ
  nextPointHistoryID : ℤ
deriving DecidableEq

/-- `PaymentResult` returned by the injected payment gateway. -/
structure PaymentResult where
  success       : Bool
  transactionID : String
  message       : String
deriving DecidableEq

/-! ## Inventory ledger -/

/-- The `availableStocks` snapshot taken by `allocateStock`: stock lines of
    the product with positive quantity, in map-iteration order. -/
def availableStocks (stocks : List Stock) (productID : ℤ) : List Stock :=
  stocks.filter fun s => s.productID == productID && decide (0 < s.quantity)

/-- The draw loop of `allocateStock`: walk the available lines, drawing from
    each until the remaining requirement reaches zero.  Returns the
    allocations `(warehouseID, drawn quantity)` and the final remainder. -/
def drawLoop : List Stock → ℤ → List (ℤ × ℤ) × ℤ
  | [], remaining => ([], remaining)
  | s :: rest, remaining =>
    if remaining ≤ 0 then ([], remaining)
    else if s.quantity ≥ remaining then ([(s.warehouseID, remaining)], 0)
    else
      let p := drawLoop rest (remaining - s.quantity)
      ((s.warehouseID, s.quantity) :: p.1, p.2)

/-- The commit phase of `allocateStock`:
    `stocks[key].Quantity -= quantity` for every allocation entry, the line
    looked up by its `productID-warehouseID` key. -/
def applyAllocations (stocks : List Stock) (productID : ℤ)
    (allocations : List (ℤ × ℤ)) : List Stock :=
  allocations.foldl
    (fun st wq =>
      st.map fun s =>
        if s.productID == productID && s.warehouseID == wq.1 then
          { s with quantity := s.quantity - wq.2 }
        else s)
    stocks

/-- `allocateStock(productID, requiredQuantity)`: draws a per-warehouse plan
    from the available lines and commits the decrements only when the full
    quantity was covered; otherwise returns failure and leaves every line
    untouched.  Result: (allocated, allocations, new stock lines). -/
def allocateStock (stocks : List Stock) (productID requiredQuantity : ℤ) :
    Bool × List (ℤ × ℤ) × List Stock :=
  let p := drawLoop (availableStocks stocks productID) requiredQuantity
  if p.2 = 0 then (true, p.1, applyAllocations stocks productID p.1)
  else (false, [], stocks)

/-- Sum of the drawn quantities of an allocation plan. -/
def planSum (plan : List (ℤ × ℤ)) : ℤ := (plan.map Prod.snd).sum

/-- Total quantity planned against one warehouse. -/
def planAmount (plan : List (ℤ × ℤ)) (warehouseID : ℤ) : ℤ :=
  ((plan.filter fun wq => wq.1 == warehouseID).map Prod.snd).sum

/-- Total available stock of a product: the sum of its per-warehouse
    quantities ("the sum over warehouses for a product"). -/
def totalAvailable (stocks : List Stock) (productID : ℤ) : ℤ :=
  ((stocks.filter fun s => s.productID == productID).map Stock.quantity).sum

/-! ## Binary64 model for the rank-discount rate

`getRankDiscountRate` returns a `float64` (0.05, 0.03 or 0.0) and
`createOrderHandler` computes `int(float64(subtotal) * rate)`. -/

/-- Round-to-nearest, ties-to-even, of the rational `a / b` to an integer. -/
def rneDiv (a b : ℕ) : ℕ :=
  if 2 * (a % b) < b then a / b
  else if b < 2 * (a % b) then a / b + 1
  else if a / b % 2 = 0 then a / b else a / b + 1

/-- Floor of the base-2 logarithm, by structural recursion on a fuel bound
    (so that it evaluates by kernel reduction). -/
def log2Aux : ℕ → ℕ → ℕ
  | 0, _ => 0
  | fuel + 1, n => if n ≤ 1 then 0 else 1 + log2Aux fuel (n / 2)

/-- `log2floor n` is the exponent `L` with `2 ^ L ≤ n < 2 ^ (L + 1)` for
    `n ≠ 0` (and `0` at `0`). -/
def log2floor (n : ℕ) : ℕ := log2Aux n n

/-- Round a natural number to 53 significant bits (round-to-nearest
    ties-to-even): the exact value of the Go conversion `float64(s)` for a
    nonnegative `int` `s`. -/
def round53 (s : ℕ) : ℕ :=
  if s = 0 then 0
  else
    let L := log2floor s
    if L ≤ 52 then s
    else rneDiv s (2 ^ (L - 52)) * 2 ^ (L - 52)

/-- The binary64 value of the Go literal `0.05`: `0.05 ∈ [2⁻⁵, 2⁻⁴)`, so its
    value is `(0.05 · 2⁵⁷ rounded to nearest even) / 2⁵⁷`. -/
def fl005num : ℕ := rneDiv (2 ^ 57) 20

/-- The binary64 value of the Go literal `0.03`: `0.03 ∈ [2⁻⁶, 2⁻⁵)`, so its
    value is `(0.03 · 2⁵⁸ rounded to nearest even) / 2⁵⁸`. -/
def fl003num : ℕ := rneDiv (3 * 2 ^ 58) 100

/-- `int(float64(s) * rate)` for `s, rate ≥ 0`, with `rate = M / 2 ^ sh` a
    binary64 value: `float64(s)` rounds `s` to 53 bits, the product rounds
    the exact rational product to 53 significant bits, and Go's `int(·)`
    truncates (here: floors, everything being nonnegative). -/
def floatMulTrunc (s M sh : ℕ) : ℕ :=
  let t := round53 s * M
  if t = 0 then 0
  else
    let L := log2floor t
    if L ≤ 52 then t / 2 ^ sh
    else rneDiv t (2 ^ (L - 52)) * 2 ^ (L - 52) / 2 ^ sh

/-- `getRankDiscountRate` as a dyadic pair `(significand, shift)`:
    Gold ↦ 0.05, Silver ↦ 0.03, default ↦ 0.0. -/
def rankRate (rank : String) : ℕ × ℕ :=
  if rank = "Gold" then (fl005num, 57)
  else if rank = "Silver" then (fl003num, 58)
  else (0, 0)

/-- `rankDiscountAmount := int(float64(subtotal) * rankDiscountRate)`.
    Binary64 multiplication and `int` truncation are both sign-symmetric, so
    a negative subtotal goes through the nonnegative model negated. -/
def rankDiscountAmount (subtotal : ℤ) (rank : String) : ℤ :=
  if 0 ≤ subtotal then
    (floatMulTrunc subtotal.toNat (rankRate rank).1 (rankRate rank).2 : ℤ)
  else
    -(floatMulTrunc (-subtotal).toNat (rankRate rank).1 (rankRate rank).2 : ℤ)

/-! ## Pricing pipeline -/

/-- `calculateCouponDiscount`: fixed coupons subtract a flat value,
    percentage coupons a truncated percentage; both kinds are then capped at
    the base amount; an unknown type yields zero without the cap. -/
def calculateCouponDiscount (coupon : Option Coupon) (baseAmount : ℤ) : ℤ :=
  match coupon with
  | none => 0
  | some c =>
    if c.type = "fixed" then
      let discount := c.amount
      if discount > baseAmount then baseAmount else discount
    else if c.type = "percentage" then
      let discount := goDiv (baseAmount * c.amount) 100
      if discount > baseAmount then baseAmount else discount
    else 0

/-- The fully itemized charge breakdown computed by `createOrderHandler`. -/
structure PricingBreakdown where
  subtotal           : ℤ
  rankDiscount       : ℤ
  discountedSubtotal : ℤ
  tax                : ℤ
  subtotalWithTax    : ℤ
  shippingFee        : ℤ
  couponDiscount     : ℤ
  afterCouponAmount  : ℤ
  totalPrice         : ℤ
  earnedPoints       : ℤ
deriving DecidableEq

/-- The in-line charge computation of `createOrderHandler`: rank discount,
    10% tax, shipping (free for Gold, else 500 below 5000), coupon discount
    on the tax-inclusive amount, points subtracted last and clamped at zero,
    and earned points = 1% of the final charge. -/
def computePricing (subtotal : ℤ) (rank : String) (coupon : Option Coupon)
    (usePoints : ℤ) : PricingBreakdown :=
  let rankDiscountAmt := rankDiscountAmount subtotal rank
  let discountedSubtotal := subtotal - rankDiscountAmt
  let tax := goDiv discountedSubtotal 10
  let subtotalWithTax := discountedSubtotal + tax
  let shippingFee : ℤ := if rank ≠ "Gold" ∧ subtotalWithTax < 5000 then 500 else 0
  let couponDiscountAmount := calculateCouponDiscount coupon subtotalWithTax
  let afterCouponAmount := subtotalWithTax - couponDiscountAmount
  let afterPointsAmount := afterCouponAmount + shippingFee - usePoints
  let totalPrice := if afterPointsAmount < 0 then 0 else afterPointsAmount
  { subtotal := subtotal
    rankDiscount := rankDiscountAmt
    discountedSubtotal := discountedSubtotal
    tax := tax
    subtotalWithTax := subtotalWithTax
    shippingFee := shippingFee
    couponDiscount := couponDiscountAmount
    afterCouponAmount := afterCouponAmount
    totalPrice := totalPrice
    earnedPoints := goDiv totalPrice 100 }

/-! ## Loyalty ledger -/

/-- `calculateMemberRank`: tier from cumulative spend. -/
def calculateMemberRank (totalSpent : ℤ) : String :=
  if totalSpent ≥ 100000 then "Gold"
  else if totalSpent ≥ 50000 then "Silver"
  else "Normal"

/-- Look a user up by id (the Go map access `users[userID]`). -/
def findUser (st : AppState) (userID : ℤ) : Option UserRec :=
  st.users.find? fun u => u.id == userID

/-- Replace the record of one user (mutation through the map pointer). -/
def setUserPoints (users : List UserRec) (userID newBal : ℤ) : List UserRec :=
  users.map fun v => if v.id == userID then { v with currentPoints := newBal } else v

/-- Append one point-history entry under the next fresh id. -/
def appendHistory (st : AppState) (userID orderID : ℤ) (type : String)
    (amount balance : ℤ) : AppState :=
  { st with
    pointHistories := st.pointHistories ++
      [{ id := st.nextPointHistoryID, userID := userID, orderID := orderID,
         type := type, amount := amount, balance := balance }]
    nextPointHistoryID := st.nextPointHistoryID + 1 }

/-- `usePoints`: if the user exists and `CurrentPoints >= points`, debit the
    balance and record a "used" history entry; otherwise change nothing and
    report failure. -/
def usePoints (st : AppState) (userID orderID points : ℤ) : Bool × AppState :=
  match findUser st userID with
  | none => (false, st)
  | some u =>
    if u.currentPoints ≥ points then
      let newBal := u.currentPoints - points
      (true,
        appendHistory { st with users := setUserPoints st.users userID newBal }
          userID orderID "used" points newBal)
    else (false, st)

/-- `addPoints`: credit earned points and record an "earned" entry (no-op for
    an unknown user). -/
def addPoints (st : AppState) (userID orderID points : ℤ) : AppState :=
  match findUser st userID with
  | none => st
  | some u =>
    let newBal := u.currentPoints + points
    appendHistory { st with users := setUserPoints st.users userID newBal }
      userID orderID "earned" points newBal

/-- `rollbackPoints`: unconditionally credit the amount back and record a
    "rollback" entry (no-op for an unknown user). -/
def rollbackPoints (st : AppState) (userID orderID points : ℤ) : AppState :=
  match findUser st userID with
  | none => st
  | some u =>
    let newBal := u.currentPoints + points
    appendHistory { st with users := setUserPoints st.users userID newBal }
      userID orderID "rollback" points newBal

/-- `updateUserPurchaseAmountAndRank`: add the charge to lifetime spend and
    re-derive the tier from the new total. -/
def updateUserPurchaseAmountAndRank (st : AppState) (userID amount : ℤ) : AppState :=
  match findUser st userID with
  | none => st
  | some _ =>
    { st with
      users := st.users.map fun v =>
        if v.id == userID then
          { v with
            totalSpentAmount := v.totalSpentAmount + amount
            memberRank := calculateMemberRank (v.totalSpentAmount + amount) }
        else v }

/-! ## Checkout orchestrator (`createOrderHandler`) -/

/-- The observable outcome of one handler run: an error response
    (HTTP status, message) or the created order with transaction id and
    refreshed points/rank. -/
inductive HandlerResponse where
  | errorResp (status : ℤ) (message : String)
  | createdResp (order : OrderRec) (transactionID : String)
      (newTotalPoints : ℤ) (currentRank : String)
deriving DecidableEq

/-- A checkout request body. -/
structure CheckoutRequest where
  items      : List OrderItem
  couponCode : String
  usePoints  : ℤ
deriving DecidableEq

/-- `getProductStock`: total stock of a product over all warehouses, counting
    positive lines whose warehouse exists. -/
def getProductStock (st : AppState) (productID : ℤ) : ℤ :=
  ((st.stocks.filter fun s =>
      s.productID == productID && decide (0 < s.quantity) &&
        st.warehouses.contains s.warehouseID).map Stock.quantity).sum

/-- The validation loop over the request items: reject nonpositive
    quantities (400), unknown products (404) and items whose aggregate stock
    is insufficient (400); accumulate the line subtotal. -/
def validateItems (st : AppState) : List OrderItem → ℤ → Except HandlerResponse ℤ
  | [], subtotal => .ok subtotal
  | item :: rest, subtotal =>
    if item.quantity ≤ 0 then
      .error (.errorResp 400 "Invalid quantity")
    else
      match st.products.find? fun p => p.id == item.productID with
      | none => .error (.errorResp 404 "Product not found")
      | some product =>
        if getProductStock st product.id < item.quantity then
          .error (.errorResp 400 "Insufficient stock")
        else validateItems st rest (subtotal + product.price * item.quantity)

/-- The allocation loop of the commit phase: allocate every line item in
    order, threading the mutated stock lines; on the first failure stop,
    keeping the decrements already committed for earlier items. -/
def allocateItems (stocks : List Stock) : List OrderItem → Bool × List Stock
  | [] => (true, stocks)
  | item :: rest =>
    let r := allocateStock stocks item.productID item.quantity
    if r.1 then allocateItems r.2.2 rest
    else (false, r.2.2)

/-- The order record built before the payment branch. -/
def mkOrder (userID : ℤ) (req : CheckoutRequest) (pb : PricingBreakdown)
    (orderID : ℤ) (status : String) : OrderRec :=
  { id := orderID, userID := userID, items := req.items,
    totalPrice := pb.totalPrice, shippingFee := pb.shippingFee,
    discountAmount := pb.couponDiscount, appliedCoupon := req.couponCode,
    status := status, earnedPoints := pb.earnedPoints,
    usedPoints := req.usePoints, rankDiscount := pb.rankDiscount }

/-- `orders[order.ID] = order` together with `nextOrderID++`. -/
def persistOrder (st : AppState) (o : OrderRec) : AppState :=
  { st with orders := st.orders ++ [o], nextOrderID := st.nextOrderID + 1 }

/-- Everything after the optimistic points debit: invoke the gateway, then
    either commit stock / credit points / update rank (success), or record a
    payment-failed order, rolling back the points debit. -/
def finishOrder (gw : ℤ → ℤ → PaymentResult) (st : AppState) (userID : ℤ)
    (req : CheckoutRequest) (pb : PricingBreakdown) (orderID : ℤ)
    (pointsUsed : Bool) : HandlerResponse × AppState :=
  let paymentResult := gw pb.totalPrice orderID
  if paymentResult.success then
    let ar := allocateItems st.stocks req.items
    if ar.1 then
      let st1 := { st with stocks := ar.2 }
      let order := mkOrder userID req pb orderID "completed"
      let st2 := if pb.earnedPoints > 0 then addPoints st1 userID orderID pb.earnedPoints else st1
      let st3 := updateUserPurchaseAmountAndRank st2 userID pb.totalPrice
      let refreshed := match findUser st3 userID with
        | some u => (u.currentPoints, u.memberRank)
        | none => (0, "")
      (.createdResp order paymentResult.transactionID refreshed.1 refreshed.2,
        persistOrder st3 order)
    else
      let st1 := { st with stocks := ar.2 }
      let st2 := if pointsUsed then rollbackPoints st1 userID orderID req.usePoints else st1
      (.errorResp 409 "Stock allocation failed. Please retry.",
        persistOrder st2 (mkOrder userID req pb orderID "payment_failed"))
  else
    let st1 := if pointsUsed then rollbackPoints st userID orderID req.usePoints else st
    (.errorResp 402 ("Payment failed: " ++ paymentResult.message),
      persistOrder st1 (mkOrder userID req pb orderID "payment_failed"))

/-- The coupon-code validation of `createOrderHandler`: an empty code means
    "no coupon"; a nonempty code must resolve in the coupon master data. -/
def lookupCoupon (st : AppState) (couponCode : String) :
    Except HandlerResponse (Option Coupon) :=
  if couponCode ≠ "" then
    match st.coupons.find? fun c => c.code == couponCode with
    | none => .error (.errorResp 400 "Invalid coupon code")
    | some c => .ok (some c)
  else .ok none

/-- `createOrderHandler` for an authenticated user `userID`, with the payment
    gateway injected as `gw amount orderID`.  Returns the response and the
    final state of the stores. -/
def createOrderHandler (gw : ℤ → ℤ → PaymentResult) (st : AppState)
    (userID : ℤ) (req : CheckoutRequest) : HandlerResponse × AppState :=
  match findUser st userID with
  | none => (.errorResp 401 "Unauthorized", st)
  | some user =>
    if req.items = [] then (.errorResp 400 "No items in order", st)
    else if req.usePoints < 0 then (.errorResp 400 "Invalid use_points value", st)
    else if req.usePoints > user.currentPoints then
      (.errorResp 400 "Insufficient points", st)
    else
      match lookupCoupon st req.couponCode with
      | .error e => (e, st)
      | .ok appliedCoupon =>
        match validateItems st req.items 0 with
        | .error e => (e, st)
        | .ok subtotal =>
          let pb := computePricing subtotal user.memberRank appliedCoupon req.usePoints
          let orderID := st.nextOrderID
          if req.usePoints > 0 then
            let up := usePoints st userID orderID req.usePoints
            if up.1 then finishOrder gw up.2 userID req pb orderID true
            else (.errorResp 500 "Failed to use points", up.2)
          else finishOrder gw st userID req pb orderID false

/-! ## Theorems -/

/-- C2: for the cart {1000 × 2, 2000 × 1} at the base tier ("Normal") with no
    coupon and no points, the pipeline yields subtotal 4000, tax 400,
    tax-inclusive amount 4400, shipping 500 (4400 < 5000) and final charge
    4900; the same cart with the fixed coupon FLAT1000 gets discount 1000 off
    the 4400 tax-inclusive amount and final charge 3900. -/
theorem pricing_example_cart :
    (let pb := computePricing (1000 * 2 + 2000 * 1) "Normal" none 0
     pb.subtotal = 4000 ∧ pb.tax = 400 ∧ pb.subtotalWithTax = 4400 ∧
       pb.shippingFee = 500 ∧ pb.totalPrice = 4900) ∧
    (let pb := computePricing (1000 * 2 + 2000 * 1) "Normal"
        (some { code := "FLAT1000", type := "fixed", amount := 1000 }) 0
     pb.couponDiscount = 1000 ∧ pb.afterCouponAmount = 3400 ∧
       pb.totalPrice = 3900) := by
  decide

set_option maxRecDepth 8000 in
/-- C4 counterexample: at subtotal 6755399441055759 (≡ 19 mod 20, about
    3·2⁵¹) the Gold-tier discount computed through float64, as the code does,
    is 337769972052788 — one more than the exact integer value
    ⌊subtotal · 5 / 100⌋ = 337769972052787.  The charge path therefore does
    use floating-point rounding that differs from exact integer arithmetic. -/
theorem rankDiscount_float_counterexample :
    rankDiscountAmount 6755399441055759 "Gold" = 337769972052788 ∧
    6755399441055759 * 5 / 100 = (337769972052787 : ℤ) ∧
    rankDiscountAmount 6755399441055759 "Gold" ≠ 6755399441055759 * 5 / 100 := by
  decide

/-- C7 counterexample: two enumerations of the same stock map (the same two
    lines for product 1, listed in the two possible orders — Go map iteration
    order is unspecified) both allocate 3 units successfully but return
    different per-warehouse plans: all 3 from warehouse 1 in one run, all 3
    from warehouse 2 in the other. -/
theorem allocateStock_order_dependent :
    ([⟨1, 1, 5⟩, ⟨1, 2, 5⟩] : List Stock).Perm [⟨1, 2, 5⟩, ⟨1, 1, 5⟩] ∧
    (allocateStock [⟨1, 1, 5⟩, ⟨1, 2, 5⟩] 1 3).1 = true ∧
    (allocateStock [⟨1, 2, 5⟩, ⟨1, 1, 5⟩] 1 3).1 = true ∧
    (allocateStock [⟨1, 1, 5⟩, ⟨1, 2, 5⟩] 1 3).2.1 ≠
      (allocateStock [⟨1, 2, 5⟩, ⟨1, 1, 5⟩] 1 3).2.1 := by
  decide

theorem rneDiv_ge_div (a b : ℕ) : a / b ≤ rneDiv a b := by
  unfold rneDiv; split_ifs <;> omega

theorem rneDiv_le_div_add_one (a b : ℕ) : rneDiv a b ≤ a / b + 1 := by
  unfold rneDiv; split_ifs <;> omega

theorem rneDiv_mul_le (a b : ℕ) (hb : 0 < b) : 2 * (rneDiv a b * b) ≤ 2 * a + b := by
  have h : a / b * b + a % b = a := by rw [mul_comm]; exact Nat.div_add_mod a b
  have hlt : a % b < b := Nat.mod_lt a hb
  unfold rneDiv
  split_ifs with h1 h2 h3 <;> [skip; rw [Nat.add_mul]; skip; rw [Nat.add_mul]] <;> omega

theorem le_rneDiv_mul (a b : ℕ) (hb : 0 < b) : 2 * a ≤ 2 * (rneDiv a b * b) + b := by
  have h : a / b * b + a % b = a := by rw [mul_comm]; exact Nat.div_add_mod a b
  have hlt : a % b < b := Nat.mod_lt a hb
  unfold rneDiv
  split_ifs with h1 h2 h3 <;> [skip; rw [Nat.add_mul]; skip; rw [Nat.add_mul]] <;> omega

theorem log2Aux_spec : ∀ fuel n, n ≤ fuel → 1 ≤ n →
    2 ^ log2Aux fuel n ≤ n ∧ n < 2 ^ (log2Aux fuel n + 1) := by
  intro fuel
  induction fuel with
  | zero => intro n h1 h2; omega
  | succ f ih =>
    intro n hn h1
    unfold log2Aux
    split_ifs with hle
    · constructor <;> simp <;> omega
    · have hrec := ih (n / 2) (by omega) (by omega)
      rcases hrec with ⟨hl, hr⟩
      constructor
      · have : 2 ^ (1 + log2Aux f (n / 2)) = 2 * 2 ^ log2Aux f (n / 2) := by
          rw [pow_add]; ring
        rw [this]; omega
      · have : 2 ^ (1 + log2Aux f (n / 2) + 1) = 2 * 2 ^ (log2Aux f (n / 2) + 1) := by
          rw [pow_add, pow_add, pow_add]; ring
        rw [this]; omega

theorem log2floor_spec (n : ℕ) (hn : 1 ≤ n) :
    2 ^ log2floor n ≤ n ∧ n < 2 ^ (log2floor n + 1) :=
  log2Aux_spec n n le_rfl hn

theorem round53_eq_self (s : ℕ) (hs : s < 2 ^ 53) : round53 s = s := by
  simp only [round53]
  split_ifs with h0 hL
  · omega
  · rfl
  · exfalso
    have h1 := (log2floor_spec s (by omega)).1
    have h2 : (2:ℕ) ^ 53 ≤ 2 ^ log2floor s := Nat.pow_le_pow_right (by norm_num) (by omega)
    omega

theorem le_rneDiv_mul_of_dvd (t G m : ℕ) (hG : 0 < G) (hdvd : G ∣ m)
    (h : 2 * m < 2 * t + G) : m ≤ rneDiv t G * G := by
  have hV := le_rneDiv_mul t G hG
  obtain ⟨j, hj⟩ := hdvd
  have h2 : 2 * m < 2 * (rneDiv t G * G) + 2 * G := by omega
  have h3 : G * (2 * j) < G * (2 * rneDiv t G + 2) := by
    calc G * (2 * j) = 2 * (G * j) := by ring
    _ = 2 * m := by rw [hj]
    _ < 2 * (rneDiv t G * G) + 2 * G := h2
    _ = G * (2 * rneDiv t G + 2) := by ring
  have h4 : 2 * j < 2 * rneDiv t G + 2 := Nat.lt_of_mul_lt_mul_left h3
  calc m = G * j := hj
  _ ≤ G * rneDiv t G := Nat.mul_le_mul_left G (by omega)
  _ = rneDiv t G * G := mul_comm _ _

theorem fl005num_eq : fl005num = 7205759403792794 := by decide

theorem fl003num_eq : fl003num = 8646911284551352 := by decide

theorem floatMulTrunc_gold (s : ℕ) (hs : s ≤ 2 ^ 51) :
    floatMulTrunc s fl005num 57 = s * 5 / 100 := by
  have hM : fl005num = 7205759403792794 := fl005num_eq
  have h51 : (2:ℕ) ^ 51 = 2251799813685248 := by norm_num
  rcases Nat.eq_zero_or_pos s with h0 | hpos
  · subst h0; rw [hM]; decide
  have hr53 : round53 s = s := round53_eq_self s (by norm_num; omega)
  have ht0 : ¬ s * fl005num = 0 := by
    rw [hM]; exact Nat.mul_ne_zero (by omega) (by norm_num)
  simp only [floatMulTrunc, hr53, if_neg ht0]
  have hspec := log2floor_spec (s * fl005num) (by omega)
  set L := log2floor (s * fl005num) with hLdef
  by_cases hL : L ≤ 52
  · rw [if_pos hL]
    have h1 : s * fl005num < 2 ^ 53 :=
      lt_of_lt_of_le hspec.2 (Nat.pow_le_pow_right (by norm_num) (by omega))
    have hs1 : s = 1 := by rw [hM] at h1; norm_num at h1; nlinarith
    subst hs1; rw [hM]; norm_num
  · rw [if_neg hL]
    push_neg at hL
    have hLle : L ≤ 103 := by
      by_contra hc
      have hp : (2:ℕ) ^ 104 ≤ 2 ^ L := Nat.pow_le_pow_right (by norm_num) (by omega)
      have h2 := hspec.1
      have hle2 : s * fl005num ≤ 2251799813685248 * 7205759403792794 := by
        rw [hM]; exact Nat.mul_le_mul_right _ (by omega)
      norm_num at hp
      omega
    set G := (2:ℕ) ^ (L - 52) with hGdef
    have hG1 : 1 ≤ G := Nat.one_le_two_pow
    have hGle : G ≤ 2251799813685248 := by
      rw [hGdef]
      calc (2:ℕ) ^ (L - 52) ≤ 2 ^ 51 := Nat.pow_le_pow_right (by norm_num) (by omega)
      _ = _ := h51
    have hGdvd : G ∣ 2 ^ 57 := by rw [hGdef]; exact pow_dvd_pow 2 (by omega)
    have hlow : s / 20 * 2 ^ 57 ≤ rneDiv (s * fl005num) G * G := by
      apply le_rneDiv_mul_of_dvd _ _ _ (by omega) (hGdvd.mul_left _)
      rw [hM]
      have h57 : (2:ℕ) ^ 57 = 144115188075855872 := by norm_num
      rw [h57]
      omega
    have hup := rneDiv_mul_le (s * fl005num) G (by omega)
    set V := rneDiv (s * fl005num) G * G with hVdef
    rw [hM] at hup
    have h57 : (2:ℕ) ^ 57 = 144115188075855872 := by norm_num
    rw [h57] at hlow ⊢
    omega

theorem floatMulTrunc_silver (s : ℕ) (hs : s ≤ 2 ^ 51) :
    floatMulTrunc s fl003num 58 = s * 3 / 100 := by
  have hM : fl003num = 8646911284551352 := fl003num_eq
  have h51 : (2:ℕ) ^ 51 = 2251799813685248 := by norm_num
  rcases Nat.eq_zero_or_pos s with h0 | hpos
  · subst h0; rw [hM]; decide
  have hr53 : round53 s = s := round53_eq_self s (by norm_num; omega)
  have ht0 : ¬ s * fl003num = 0 := by
    rw [hM]; exact Nat.mul_ne_zero (by omega) (by norm_num)
  simp only [floatMulTrunc, hr53, if_neg ht0]
  have hspec := log2floor_spec (s * fl003num) (by omega)
  set L := log2floor (s * fl003num) with hLdef
  by_cases hL : L ≤ 52
  · rw [if_pos hL]
    have h1 : s * fl003num < 2 ^ 53 :=
      lt_of_lt_of_le hspec.2 (Nat.pow_le_pow_right (by norm_num) (by omega))
    have hs1 : s = 1 := by rw [hM] at h1; norm_num at h1; nlinarith
    subst hs1; rw [hM]; norm_num
  · rw [if_neg hL]
    push_neg at hL
    have hLle : L ≤ 103 := by
      by_contra hc
      have hp : (2:ℕ) ^ 104 ≤ 2 ^ L := Nat.pow_le_pow_right (by norm_num) (by omega)
      have h2 := hspec.1
      have hle2 : s * fl003num ≤ 2251799813685248 * 8646911284551352 := by
        rw [hM]; exact Nat.mul_le_mul_right _ (by omega)
      norm_num at hp
      omega
    have htight : s * fl003num < 2 ^ (L - 52) * 9007199254740992 := by
      have he : (2:ℕ) ^ (L + 1) = 2 ^ (L - 52) * 2 ^ 53 := by
        rw [← pow_add]; congr 1; omega
      have h53 : (2:ℕ) ^ 53 = 9007199254740992 := by norm_num
      rw [he, h53] at hspec
      exact hspec.2
    set G := (2:ℕ) ^ (L - 52) with hGdef
    have hG1 : 1 ≤ G := Nat.one_le_two_pow
    have hGle : G ≤ 2251799813685248 := by
      rw [hGdef]
      calc (2:ℕ) ^ (L - 52) ≤ 2 ^ 51 := Nat.pow_le_pow_right (by norm_num) (by omega)
      _ = _ := h51
    have hGdvd : G ∣ 2 ^ 58 := by rw [hGdef]; exact pow_dvd_pow 2 (by omega)
    have hlow : s * 3 / 100 * 2 ^ 58 ≤ rneDiv (s * fl003num) G * G := by
      apply le_rneDiv_mul_of_dvd _ _ _ (by omega) (hGdvd.mul_left _)
      rw [hM]
      have h58 : (2:ℕ) ^ 58 = 288230376151711744 := by norm_num
      rw [h58]
      rw [hM] at htight
      omega
    have hup := rneDiv_mul_le (s * fl003num) G (by omega)
    set V := rneDiv (s * fl003num) G * G with hVdef
    rw [hM] at hup
    have h58 : (2:ℕ) ^ 58 = 288230376151711744 := by norm_num
    rw [h58] at hlow ⊢
    omega

theorem rneDiv_mul_le_add (a b : ℕ) : rneDiv a b * b ≤ a + b := by
  have h : a / b * b ≤ a := Nat.div_mul_le_self a b
  have h2 : rneDiv a b ≤ a / b + 1 := rneDiv_le_div_add_one a b
  calc rneDiv a b * b ≤ (a / b + 1) * b := Nat.mul_le_mul_right b h2
  _ = a / b * b + b := by ring
  _ ≤ a + b := by omega

theorem round53_le_two_mul (s : ℕ) : round53 s ≤ 2 * s := by
  simp only [round53]
  split_ifs with h0 hL
  · omega
  · omega
  · have hspec := log2floor_spec s (by omega)
    have hGle : 2 ^ (log2floor s - 52) ≤ s :=
      le_trans (Nat.pow_le_pow_right (by norm_num) (by omega)) hspec.1
    have := rneDiv_mul_le_add s (2 ^ (log2floor s - 52))
    omega

theorem floatMulTrunc_le_self (s M sh : ℕ) (hM : M ≤ 2 ^ 53) (hsh : 55 ≤ sh) :
    floatMulTrunc s M sh ≤ s := by
  simp only [floatMulTrunc]
  have hts : round53 s * M ≤ s * 2 ^ 54 := by
    calc round53 s * M ≤ (2 * s) * 2 ^ 53 :=
      Nat.mul_le_mul (round53_le_two_mul s) hM
    _ = s * 2 ^ 54 := by ring
  have hshle : (2:ℕ) ^ 55 ≤ 2 ^ sh := Nat.pow_le_pow_right (by norm_num) hsh
  have h54sh : (2:ℕ) ^ 54 ≤ 2 ^ sh := le_trans (by norm_num) hshle
  have hcancel : s * 2 ^ sh / 2 ^ sh = s := Nat.mul_div_cancel s (by positivity)
  split_ifs with h0 hL
  · omega
  · have h1 : round53 s * M ≤ s * 2 ^ sh :=
      le_trans hts (Nat.mul_le_mul_left s h54sh)
    have h5 : round53 s * M / 2 ^ sh ≤ s * 2 ^ sh / 2 ^ sh := Nat.div_le_div_right h1
    omega
  · have hspec := log2floor_spec (round53 s * M) (by omega)
    have hGle : 2 ^ (log2floor (round53 s * M) - 52) ≤ round53 s * M :=
      le_trans (Nat.pow_le_pow_right (by norm_num) (by omega)) hspec.1
    have hVle := rneDiv_mul_le_add (round53 s * M) (2 ^ (log2floor (round53 s * M) - 52))
    have h4 : s * 2 ^ 55 ≤ s * 2 ^ sh := Nat.mul_le_mul_left s hshle
    have h2 : rneDiv (round53 s * M) (2 ^ (log2floor (round53 s * M) - 52)) *
        2 ^ (log2floor (round53 s * M) - 52) ≤ s * 2 ^ sh := by
      have h3 : 2 * (s * 2 ^ 54) = s * 2 ^ 55 := by ring
      omega
    have h5 : rneDiv (round53 s * M) (2 ^ (log2floor (round53 s * M) - 52)) *
        2 ^ (log2floor (round53 s * M) - 52) / 2 ^ sh ≤ s * 2 ^ sh / 2 ^ sh :=
      Nat.div_le_div_right h2
    omega

theorem rankDiscountAmount_nonneg (s : ℤ) (h0 : 0 ≤ s) (rank : String) :
    0 ≤ rankDiscountAmount s rank := by
  simp only [rankDiscountAmount, if_pos h0]
  exact Int.natCast_nonneg _

theorem rankDiscountAmount_le_self (s : ℤ) (h0 : 0 ≤ s) (rank : String) :
    rankDiscountAmount s rank ≤ s := by
  simp only [rankDiscountAmount, if_pos h0]
  by_cases hG : rank = "Gold"
  · subst hG
    simp [rankRate]
    have := floatMulTrunc_le_self s.toNat fl005num 57 (by rw [fl005num_eq]; norm_num) (by norm_num)
    omega
  · by_cases hS : rank = "Silver"
    · subst hS
      simp [rankRate]
      have := floatMulTrunc_le_self s.toNat fl003num 58 (by rw [fl003num_eq]; norm_num) (by norm_num)
      omega
    · simp only [rankRate, if_neg hG, if_neg hS]
      simp [floatMulTrunc, round53]
      omega

theorem calculateCouponDiscount_le (coupon : Option Coupon) (base : ℤ) (hb : 0 ≤ base) :
    calculateCouponDiscount coupon base ≤ base := by
  match coupon with
  | none => simp [calculateCouponDiscount]; omega
  | some c =>
    simp only [calculateCouponDiscount]
    split_ifs with h1 h2 h3 h4
    · exact le_refl base
    · exact not_lt.mp h2
    · exact le_refl base
    · exact not_lt.mp h4
    · exact hb

/-- The fixed tier-rate table of the specification, in percent
    (top tier 5%, mid tier 3%, base tier 0%); stated from the spec to compare
    the code's float64 computation against. -/
def rankRatePercent (rank : String) : ℤ :=
  if rank = "Gold" then 5 else if rank = "Silver" then 3 else 0

/-- C4 (amended): the tier discount is computed through float64, not integer
    arithmetic, but for every subtotal `0 ≤ s ≤ 2 ^ 51` (far beyond any
    realistic charge) it still equals the exact integer value
    `s * rate / 100` of the fixed table rate; all other pipeline stages are
    integer-only.  Beyond that bound the float64 rounding can differ (see the
    counterexample). -/
theorem rankDiscountAmount_exact (s : ℤ) (h0 : 0 ≤ s) (hs : s ≤ 2 ^ 51) (rank : String) :
    rankDiscountAmount s rank = s * rankRatePercent rank / 100 := by
  have hlit : (2:ℤ) ^ 51 = 2251799813685248 := by norm_num
  have hlitn : (2:ℕ) ^ 51 = 2251799813685248 := by norm_num
  rw [hlit] at hs
  simp only [rankDiscountAmount, if_pos h0]
  by_cases hG : rank = "Gold"
  · subst hG
    simp [rankRate, rankRatePercent]
    rw [floatMulTrunc_gold s.toNat (by omega)]
    omega
  · by_cases hS : rank = "Silver"
    · subst hS
      simp [rankRate, rankRatePercent]
      rw [floatMulTrunc_silver s.toNat (by omega)]
      omega
    · simp only [rankRate, rankRatePercent, if_neg hG, if_neg hS]
      simp [floatMulTrunc, round53]

/-- Witness for the amended C4 at subtotal 4000, Gold tier: discount 200. -/
theorem rankDiscountAmount_exact_witness :
    0 ≤ (4000:ℤ) ∧ (4000:ℤ) ≤ 2 ^ 51 ∧
      rankDiscountAmount 4000 "Gold" = 200 := by
  refine ⟨by norm_num, by norm_num, ?_⟩
  have h := rankDiscountAmount_exact 4000 (by norm_num) (by norm_num) "Gold"
  rw [h]; decide

theorem validateItems_subtotal_nonneg (st : AppState)
    (hp : ∀ p ∈ st.products, 0 ≤ p.price) :
    ∀ items acc subtotal, validateItems st items acc = .ok subtotal →
      0 ≤ acc → 0 ≤ subtotal := by
  intro items
  induction items with
  | nil =>
    intro acc subtotal h hacc
    simp only [validateItems] at h
    cases h
    exact hacc
  | cons item rest ih =>
    intro acc subtotal h hacc
    simp only [validateItems] at h
    by_cases h1 : item.quantity ≤ 0
    · rw [if_pos h1] at h; cases h
    · rw [if_neg h1] at h
      cases hfind : st.products.find? fun p => p.id == item.productID with
      | none => rw [hfind] at h; cases h
      | some product =>
        rw [hfind] at h
        dsimp only at h
        by_cases h2 : getProductStock st product.id < item.quantity
        · rw [if_pos h2] at h; cases h
        · rw [if_neg h2] at h
          have hmem := List.mem_of_find?_eq_some hfind
          have hprice := hp product hmem
          refine ih _ _ h ?_
          have hq : (0:ℤ) ≤ product.price * item.quantity :=
            mul_nonneg hprice (by omega)
          omega

/-- C5: for every valid cart (nonnegative prices, validation passed) and
    every tier, coupon and requested (nonnegative) point amount, every
    intermediate amount of the pipeline is nonnegative and the final charge
    is nonnegative; a redemption request larger than the remaining total
    yields a final charge of exactly 0. -/
theorem pricing_pipeline_nonneg (st : AppState) (items : List OrderItem)
    (subtotal : ℤ) (rank : String) (coupon : Option Coupon) (usePoints : ℤ)
    (hp : ∀ p ∈ st.products, 0 ≤ p.price)
    (hval : validateItems st items 0 = .ok subtotal) :
    0 ≤ (computePricing subtotal rank coupon usePoints).discountedSubtotal ∧
    0 ≤ (computePricing subtotal rank coupon usePoints).subtotalWithTax ∧
    0 ≤ (computePricing subtotal rank coupon usePoints).afterCouponAmount ∧
    0 ≤ (computePricing subtotal rank coupon usePoints).totalPrice ∧
    ((computePricing subtotal rank coupon usePoints).afterCouponAmount +
        (computePricing subtotal rank coupon usePoints).shippingFee < usePoints →
      (computePricing subtotal rank coupon usePoints).totalPrice = 0) := by
  have hsub : 0 ≤ subtotal := validateItems_subtotal_nonneg st hp items 0 subtotal hval le_rfl
  have hrd0 := rankDiscountAmount_nonneg subtotal hsub rank
  have hrd1 := rankDiscountAmount_le_self subtotal hsub rank
  have hds : 0 ≤ subtotal - rankDiscountAmount subtotal rank := by omega
  have htax : 0 ≤ goDiv (subtotal - rankDiscountAmount subtotal rank) 10 :=
    Int.tdiv_nonneg hds (by norm_num)
  have hswt : 0 ≤ subtotal - rankDiscountAmount subtotal rank +
      goDiv (subtotal - rankDiscountAmount subtotal rank) 10 := by omega
  have hcd := calculateCouponDiscount_le coupon
    (subtotal - rankDiscountAmount subtotal rank +
      goDiv (subtotal - rankDiscountAmount subtotal rank) 10) hswt
  simp only [computePricing]
  split_ifs with hship hclamp hclamp2 <;>
    refine ⟨by omega, by omega, by omega, by omega, fun hlt => by omega⟩

/-- The seed data of `init()` (prices and stock lines; bcrypt hash and
    display strings omitted): four products, three warehouses, twelve stock
    lines, four coupons, the admin user. -/
def sampleState : AppState where
  products := [⟨1, 120000⟩, ⟨2, 3000⟩, ⟨3, 25000⟩, ⟨4, 15000⟩]
  warehouses := [1, 2, 3]
  stocks := [⟨1, 1, 5⟩, ⟨1, 2, 3⟩, ⟨1, 3, 2⟩,
             ⟨2, 1, 20⟩, ⟨2, 2, 20⟩, ⟨2, 3, 10⟩,
             ⟨3, 1, 2⟩, ⟨3, 2, 2⟩, ⟨3, 3, 1⟩,
             ⟨4, 1, 3⟩, ⟨4, 2, 3⟩, ⟨4, 3, 2⟩]
  users := [⟨1, 0, 0, "Normal"⟩]
  orders := []
  pointHistories := []
  coupons := [⟨"SAVE10", "percentage", 10⟩, ⟨"SAVE20", "percentage", 20⟩,
              ⟨"FLAT1000", "fixed", 1000⟩, ⟨"FLAT2000", "fixed", 2000⟩]
  nextOrderID := 1
  nextPointHistoryID := 1

/-- Witness for C5: two mice (price 3000 each) from the seed catalog, with an
    over-sized redemption request of 99999 points; the final charge clamps to
    exactly 0. -/
theorem pricing_pipeline_nonneg_witness :
    (∀ p ∈ sampleState.products, 0 ≤ p.price) ∧
    (0 ≤ (computePricing 6000 "Normal" none 99999).totalPrice ∧
      (computePricing 6000 "Normal" none 99999).totalPrice = 0) := by
  have hval : validateItems sampleState [⟨2, 2⟩] 0 = .ok 6000 := by rfl
  have hp : ∀ p ∈ sampleState.products, 0 ≤ p.price := by decide
  have h := pricing_pipeline_nonneg sampleState [⟨2, 2⟩] 6000 "Normal" none 99999 hp hval
  exact ⟨hp, h.2.2.2.1, h.2.2.2.2 (by decide)⟩

/-- C9: the coupon discount of either kind never exceeds the (tax-inclusive)
    base amount it is applied to; in the pipeline the coupon discount is
    computed from the tax-inclusive amount alone, and the shipping fee is
    added after the coupon discount, so (with no points redeemed) the final
    charge always retains the full shipping fee — shipping is never
    discounted. -/
theorem coupon_discount_capped (c : Coupon) (base subtotal : ℤ) (rank : String)
    (coupon : Option Coupon) (hb : 0 ≤ base) (hsub : 0 ≤ subtotal) :
    calculateCouponDiscount (some c) base ≤ base ∧
    (computePricing subtotal rank coupon 0).couponDiscount =
      calculateCouponDiscount coupon
        (computePricing subtotal rank coupon 0).subtotalWithTax ∧
    (computePricing subtotal rank coupon 0).shippingFee ≤
      (computePricing subtotal rank coupon 0).totalPrice := by
  refine ⟨calculateCouponDiscount_le _ _ hb, by simp [computePricing], ?_⟩
  have hrd0 := rankDiscountAmount_nonneg subtotal hsub rank
  have hrd1 := rankDiscountAmount_le_self subtotal hsub rank
  have hds : 0 ≤ subtotal - rankDiscountAmount subtotal rank := by omega
  have htax : 0 ≤ goDiv (subtotal - rankDiscountAmount subtotal rank) 10 :=
    Int.tdiv_nonneg hds (by norm_num)
  have hswt : 0 ≤ subtotal - rankDiscountAmount subtotal rank +
      goDiv (subtotal - rankDiscountAmount subtotal rank) 10 := by omega
  have hcd := calculateCouponDiscount_le coupon
    (subtotal - rankDiscountAmount subtotal rank +
      goDiv (subtotal - rankDiscountAmount subtotal rank) 10) hswt
  simp only [computePricing]
  split_ifs <;> omega

/-- Witness for C9: a 150% percentage coupon on base 1000 is capped at 1000,
    and the 500-yen shipping fee survives the FLAT1000 coupon. -/
theorem coupon_discount_capped_witness :
    calculateCouponDiscount (some ⟨"BIG", "percentage", 150⟩) 1000 ≤ 1000 ∧
    (computePricing 4000 "Normal"
        (some ⟨"FLAT1000", "fixed", 1000⟩) 0).shippingFee ≤
      (computePricing 4000 "Normal"
        (some ⟨"FLAT1000", "fixed", 1000⟩) 0).totalPrice := by
  have h := coupon_discount_capped ⟨"BIG", "percentage", 150⟩ 1000 4000 "Normal"
    (some ⟨"FLAT1000", "fixed", 1000⟩) (by norm_num) (by norm_num)
  exact ⟨h.1, h.2.2⟩

/-- C8: for an existing user `u` and an amount `a ≥ 0`, `usePoints` succeeds
    exactly when the balance covers the amount; on success the balance drops
    by `a` and exactly one "used" history entry with amount `a` and the
    resulting balance is appended; on failure nothing changes. -/
theorem usePoints_spec (st : AppState) (u : UserRec) (orderID a : ℤ)
    (hfind : findUser st u.id = some u) (ha : 0 ≤ a) :
    ((usePoints st u.id orderID a).1 = true ↔ a ≤ u.currentPoints) ∧
    (a ≤ u.currentPoints →
      findUser (usePoints st u.id orderID a).2 u.id =
        some { u with currentPoints := u.currentPoints - a } ∧
      (usePoints st u.id orderID a).2.pointHistories =
        st.pointHistories ++
          [{ id := st.nextPointHistoryID, userID := u.id, orderID := orderID,
             type := "used", amount := a, balance := u.currentPoints - a }]) ∧
    (¬ a ≤ u.currentPoints → (usePoints st u.id orderID a).2 = st) := by
  constructor
  · simp only [usePoints, hfind]
    split_ifs with h
    · simp; omega
    · simp; omega
  constructor
  · intro hle
    have hfind' : st.users.find? (fun v => v.id == u.id) = some u := hfind
    simp only [usePoints, hfind, if_pos (by omega : u.currentPoints ≥ a)]
    constructor
    · simp only [appendHistory, findUser, setUserPoints]
      rw [List.find?_map]
      have hfun : ((fun v : UserRec => v.id == u.id) ∘
          fun v => if v.id == u.id then { v with currentPoints := u.currentPoints - a } else v) =
          fun v : UserRec => v.id == u.id := by
        funext v
        simp only [Function.comp, beq_iff_eq]
        by_cases hv : v.id = u.id <;> simp [hv]
      rw [hfun, hfind']
      simp
    · simp [appendHistory]
  · intro hgt
    simp only [usePoints, hfind, if_neg (by omega : ¬ u.currentPoints ≥ a)]

theorem planSum_cons (w q : ℤ) (rest : List (ℤ × ℤ)) :
    planSum ((w, q) :: rest) = q + planSum rest := by
  simp [planSum]

theorem drawLoop_remainder (l : List Stock) (rem : ℤ) :
    (drawLoop l rem).2 = rem - planSum (drawLoop l rem).1 := by
  induction l generalizing rem with
  | nil => simp [drawLoop, planSum]
  | cons s rest ih =>
    simp only [drawLoop]
    split_ifs with h1 h2
    · simp [planSum]
    · simp [planSum]
    · simp only [planSum_cons]
      have := ih (rem - s.quantity)
      simp only [planSum] at this ⊢
      omega

theorem drawLoop_rem_zero (l : List Stock) (rem : ℤ) (hrem : 0 < rem)
    (hsum : rem ≤ (l.map Stock.quantity).sum) (hpos : ∀ s ∈ l, 0 < s.quantity) :
    (drawLoop l rem).2 = 0 := by
  induction l generalizing rem with
  | nil => simp at hsum; omega
  | cons s rest ih =>
    simp only [drawLoop]
    split_ifs with h1 h2
    · omega
    · rfl
    · simp only [List.map_cons, List.sum_cons] at hsum
      exact ih (rem - s.quantity) (by omega) (by omega)
        (fun x hx => hpos x (List.mem_cons_of_mem s hx))

theorem quantity_sum_nonneg (l : List Stock) (h : ∀ s ∈ l, 0 ≤ s.quantity) :
    0 ≤ (l.map Stock.quantity).sum := by
  induction l with
  | nil => simp
  | cons s rest ih =>
    have hs := h s (List.mem_cons_self s rest)
    have hr := ih (fun x hx => h x (List.mem_cons_of_mem s hx))
    simp only [List.map_cons, List.sum_cons]
    omega

theorem drawLoop_rem_of_insufficient (l : List Stock) (rem : ℤ) (hrem : 0 < rem)
    (hsum : (l.map Stock.quantity).sum < rem) (hpos : ∀ s ∈ l, 0 < s.quantity) :
    (drawLoop l rem).2 = rem - (l.map Stock.quantity).sum := by
  induction l generalizing rem with
  | nil => simp [drawLoop]
  | cons s rest ih =>
    have hs := hpos s (List.mem_cons_self s rest)
    have hrestpos : ∀ x ∈ rest, 0 < x.quantity :=
      fun x hx => hpos x (List.mem_cons_of_mem s hx)
    have hrestsum : 0 ≤ (rest.map Stock.quantity).sum :=
      quantity_sum_nonneg rest (fun x hx => le_of_lt (hrestpos x hx))
    simp only [List.map_cons, List.sum_cons] at hsum ⊢
    simp only [drawLoop]
    split_ifs with h1 h2
    · omega
    · omega
    · have := ih (rem - s.quantity) (by omega) (by omega) hrestpos
      omega

theorem mem_availableStocks (stocks : List Stock) (p : ℤ) (s : Stock) :
    s ∈ availableStocks stocks p ↔ s ∈ stocks ∧ s.productID = p ∧ 0 < s.quantity := by
  simp [availableStocks, List.mem_filter, beq_iff_eq, and_assoc]

theorem availableStocks_sum (stocks : List Stock) (p : ℤ)
    (hq : ∀ s ∈ stocks, 0 ≤ s.quantity) :
    ((availableStocks stocks p).map Stock.quantity).sum = totalAvailable stocks p := by
  induction stocks with
  | nil => simp [availableStocks, totalAvailable]
  | cons s rest ih =>
    have hs := hq s (List.mem_cons_self s rest)
    have ihr := ih (fun x hx => hq x (List.mem_cons_of_mem s hx))
    simp only [availableStocks, totalAvailable, List.filter_cons] at ihr ⊢
    by_cases hp : s.productID = p
    · by_cases hpos : 0 < s.quantity
      · simp [hp, hpos, beq_iff_eq] at ihr ⊢
        omega
      · have hz : s.quantity = 0 := by omega
        simp [hp, hpos, beq_iff_eq, hz] at ihr ⊢
        omega
    · simp [hp, beq_iff_eq] at ihr ⊢
      omega

theorem drawLoop_plan_mem (l : List Stock) (rem : ℤ)
    (hpos : ∀ s ∈ l, 0 < s.quantity) :
    ∀ wq ∈ (drawLoop l rem).1,
      ∃ s ∈ l, s.warehouseID = wq.1 ∧ wq.2 ≤ s.quantity ∧ 0 < wq.2 := by
  induction l generalizing rem with
  | nil => simp [drawLoop]
  | cons s rest ih =>
    intro wq hwq
    simp only [drawLoop] at hwq
    split_ifs at hwq with h1 h2
    · simp at hwq
    · simp at hwq
      subst hwq
      exact ⟨s, List.mem_cons_self s rest, rfl, by omega, by omega⟩
    · simp only [List.mem_cons] at hwq
      rcases hwq with heq | hmem
      · subst heq
        exact ⟨s, List.mem_cons_self s rest, rfl, le_refl _,
          hpos s (List.mem_cons_self s rest)⟩
      · obtain ⟨x, hx, hprop⟩ := ih (rem - s.quantity)
          (fun y hy => hpos y (List.mem_cons_of_mem s hy)) wq hmem
        exact ⟨x, List.mem_cons_of_mem s hx, hprop⟩

theorem drawLoop_wids_sublist (l : List Stock) (rem : ℤ) :
    ((drawLoop l rem).1.map Prod.fst).Sublist (l.map Stock.warehouseID) := by
  induction l generalizing rem with
  | nil => simp [drawLoop]
  | cons s rest ih =>
    simp only [drawLoop]
    split_ifs with h1 h2
    · simp
    · simp
    · simp only [List.map_cons]
      exact (ih (rem - s.quantity)).cons₂ s.warehouseID

theorem planAmount_cons (w aq x : ℤ) (rest : List (ℤ × ℤ)) :
    planAmount ((w, aq) :: rest) x =
      (if w = x then aq else 0) + planAmount rest x := by
  simp only [planAmount, List.filter_cons]
  by_cases h : w = x
  · simp [h]
  · simp [h, beq_iff_eq]

theorem planAmount_eq_zero_of_not_mem (plan : List (ℤ × ℤ)) (x : ℤ)
    (h : x ∉ plan.map Prod.fst) : planAmount plan x = 0 := by
  induction plan with
  | nil => simp [planAmount]
  | cons wq rest ih =>
    simp only [List.map_cons, List.mem_cons] at h
    push_neg at h
    rcases wq with ⟨w, aq⟩
    rw [planAmount_cons]
    rw [ih h.2]
    simp only [if_neg (by simpa using (Ne.symm h.1))]
    omega

theorem planAmount_eq_of_mem (plan : List (ℤ × ℤ)) (w aq : ℤ)
    (hnd : (plan.map Prod.fst).Nodup) (hmem : (w, aq) ∈ plan) :
    planAmount plan w = aq := by
  induction plan with
  | nil => simp at hmem
  | cons wq rest ih =>
    rcases wq with ⟨w', aq'⟩
    simp only [List.map_cons, List.nodup_cons] at hnd
    simp only [List.mem_cons] at hmem
    rcases hmem with heq | hmem
    · injection heq.symm with hw haq
      subst hw
      subst haq
      rw [planAmount_cons, if_pos rfl]
      rw [planAmount_eq_zero_of_not_mem rest _ hnd.1]
      omega
    · have hne : w' ≠ w := by
        intro hc
        subst hc
        exact hnd.1 (List.mem_map_of_mem Prod.fst hmem)
      rw [planAmount_cons, if_neg hne, ih hnd.2 hmem]
      omega

theorem applyAllocations_eq (plan : List (ℤ × ℤ)) (stocks : List Stock) (p : ℤ) :
    applyAllocations stocks p plan = stocks.map fun s =>
      if s.productID = p then
        { s with quantity := s.quantity - planAmount plan s.warehouseID }
      else s := by
  induction plan generalizing stocks with
  | nil =>
    simp only [applyAllocations, List.foldl_nil, planAmount, List.filter_nil,
      List.map_nil, List.sum_nil]
    have h : (fun s : Stock =>
        if s.productID = p then { s with quantity := s.quantity - 0 } else s) =
        fun s => s := by
      funext s
      split_ifs <;> simp
    rw [h]
    simp
  | cons wq rest ih =>
    rcases wq with ⟨w, aq⟩
    have hstep : applyAllocations stocks p ((w, aq) :: rest) =
        applyAllocations (stocks.map fun s =>
          if s.productID == p && s.warehouseID == w then
            { s with quantity := s.quantity - aq }
          else s) p rest := by
      simp [applyAllocations]
    rw [hstep, ih, List.map_map]
    congr 1
    funext s
    rcases s with ⟨spid, swid, sq⟩
    simp only [Function.comp]
    by_cases hp : spid = p
    · subst hp
      by_cases hw : swid = w
      · subst hw
        simp [planAmount_cons, sub_sub]
      · have hw2 : ¬ w = swid := fun hc => hw hc.symm
        simp [hw, hw2, planAmount_cons]
    · simp [hp]

theorem availableStocks_wids_nodup (stocks : List Stock) (p : ℤ)
    (hnd : (stocks.map fun s => (s.productID, s.warehouseID)).Nodup) :
    ((availableStocks stocks p).map Stock.warehouseID).Nodup := by
  induction stocks with
  | nil => simp [availableStocks]
  | cons s rest ih =>
    simp only [List.map_cons, List.nodup_cons] at hnd
    have ihr := ih hnd.2
    simp only [availableStocks, List.filter_cons] at ihr ⊢
    by_cases hc : (s.productID == p && decide (0 < s.quantity)) = true
    · rw [if_pos hc]
      simp only [List.map_cons, List.nodup_cons]
      refine ⟨?_, ihr⟩
      intro hmem
      simp only [List.mem_map, List.mem_filter] at hmem
      obtain ⟨s', ⟨hs'mem, hs'cond⟩, hwid⟩ := hmem
      simp only [Bool.and_eq_true, beq_iff_eq, decide_eq_true_eq] at hc hs'cond
      apply hnd.1
      have : (fun x : Stock => (x.productID, x.warehouseID)) s' =
          (s.productID, s.warehouseID) := by
        simp only [hs'cond.1, hc.1, hwid]
      rw [← this]
      exact List.mem_map_of_mem _ hs'mem
    · rw [if_neg hc]
      exact ihr

/-- Core correctness of `allocateStock` (used both for C1 and to compare
    enumeration orders): success plan sums to `q` with in-place decrements
    staying nonnegative, failure mutates nothing, and failure happens exactly
    when total availability is short. -/
theorem allocateStock_correct (stocks : List Stock) (p q : ℤ)
    (hq : ∀ s ∈ stocks, 0 ≤ s.quantity)
    (hnd : (stocks.map fun s => (s.productID, s.warehouseID)).Nodup)
    (hreq : 0 < q) :
    ((allocateStock stocks p q).1 = true →
      planSum (allocateStock stocks p q).2.1 = q ∧
      (allocateStock stocks p q).2.2 = stocks.map (fun s =>
        if s.productID = p then
          { s with quantity :=
              s.quantity - planAmount (allocateStock stocks p q).2.1 s.warehouseID }
        else s) ∧
      ∀ s ∈ (allocateStock stocks p q).2.2, 0 ≤ s.quantity) ∧
    ((allocateStock stocks p q).1 = false → (allocateStock stocks p q).2.2 = stocks) ∧
    ((allocateStock stocks p q).1 = false ↔ totalAvailable stocks p < q) := by
  have hposavail : ∀ s ∈ availableStocks stocks p, 0 < s.quantity :=
    fun s hs => ((mem_availableStocks stocks p s).1 hs).2.2
  have hsum := availableStocks_sum stocks p hq
  by_cases hrem : (drawLoop (availableStocks stocks p) q).2 = 0
  · have halloc : allocateStock stocks p q =
        (true, (drawLoop (availableStocks stocks p) q).1,
          applyAllocations stocks p (drawLoop (availableStocks stocks p) q).1) := by
      simp [allocateStock, hrem]
    rw [halloc]
    have hps : planSum (drawLoop (availableStocks stocks p) q).1 = q := by
      have := drawLoop_remainder (availableStocks stocks p) q
      omega
    have hplannd : ((drawLoop (availableStocks stocks p) q).1.map Prod.fst).Nodup :=
      (availableStocks_wids_nodup stocks p hnd).sublist
        (drawLoop_wids_sublist (availableStocks stocks p) q)
    refine ⟨fun _ => ⟨hps, applyAllocations_eq _ _ _, ?_⟩,
      fun hc => absurd hc (by simp), ?_⟩
    · intro s' hs'
      rw [applyAllocations_eq] at hs'
      simp only [List.mem_map] at hs'
      obtain ⟨s, hsmem, hmap⟩ := hs'
      by_cases hp : s.productID = p
      · rw [if_pos hp] at hmap
        subst hmap
        simp only []
        by_cases hw : s.warehouseID ∈ (drawLoop (availableStocks stocks p) q).1.map Prod.fst
        · simp only [List.mem_map] at hw
          obtain ⟨wq, hwq, hwid⟩ := hw
          obtain ⟨s'', hs''mem, hs''wid, hs''le, hs''pos⟩ :=
            drawLoop_plan_mem (availableStocks stocks p) q hposavail wq hwq
          have hs''prop := (mem_availableStocks stocks p s'').1 hs''mem
          have hkey : (fun x : Stock => (x.productID, x.warehouseID)) s'' =
              (fun x : Stock => (x.productID, x.warehouseID)) s := by
            simp only [Prod.mk.injEq]
            exact ⟨by rw [hs''prop.2.1, hp], by rw [hs''wid, hwid]⟩
          have heqs : s'' = s :=
            List.inj_on_of_nodup_map hnd hs''prop.1 hsmem hkey
          have hpa : planAmount (drawLoop (availableStocks stocks p) q).1
              s.warehouseID = wq.2 := by
            have hwq2 : wq = (s.warehouseID, wq.2) := by
              rcases wq with ⟨a, b⟩
              simp at hwid ⊢
              exact hwid
            rw [hwq2] at hwq
            exact planAmount_eq_of_mem _ _ _ hplannd hwq
          rw [hpa]
          rw [heqs] at hs''le
          omega
        · rw [planAmount_eq_zero_of_not_mem _ _ hw]
          have := hq s hsmem
          omega
      · rw [if_neg hp] at hmap
        subst hmap
        exact hq s hsmem
    · constructor
      · intro hc
        exact absurd hc (by simp)
      · intro hlt
        exfalso
        have := drawLoop_rem_of_insufficient (availableStocks stocks p) q hreq
          (by omega) hposavail
        omega
  · have halloc : allocateStock stocks p q = (false, [], stocks) := by
      simp [allocateStock, hrem]
    rw [halloc]
    refine ⟨fun hc => absurd hc (by simp), fun _ => rfl, ?_⟩
    constructor
    · intro _
      by_contra hge
      push_neg at hge
      exact hrem (drawLoop_rem_zero (availableStocks stocks p) q hreq (by omega) hposavail)
    · intro _
      rfl

/-- C1: for `q > 0`, valid stock lines (nonnegative quantities, distinct
    (product, warehouse) keys), `allocateStock` either (a) succeeds with a
    plan summing to exactly `q`, decrementing exactly the planned warehouse
    lines by the planned amounts with every resulting quantity still
    nonnegative, or (b) fails mutating nothing — and it fails exactly when
    the total available stock of the product is less than `q`. -/
theorem allocateStock_spec (stocks : List Stock) (p q : ℤ)
    (hq : ∀ s ∈ stocks, 0 ≤ s.quantity)
    (hnd : (stocks.map fun s => (s.productID, s.warehouseID)).Nodup)
    (hreq : 0 < q) :
    ((allocateStock stocks p q).1 = true →
      planSum (allocateStock stocks p q).2.1 = q ∧
      (allocateStock stocks p q).2.2 = stocks.map (fun s =>
        if s.productID = p then
          { s with quantity :=
              s.quantity - planAmount (allocateStock stocks p q).2.1 s.warehouseID }
        else s) ∧
      ∀ s ∈ (allocateStock stocks p q).2.2, 0 ≤ s.quantity) ∧
    ((allocateStock stocks p q).1 = false → (allocateStock stocks p q).2.2 = stocks) ∧
    ((allocateStock stocks p q).1 = false ↔ totalAvailable stocks p < q) :=
  allocateStock_correct stocks p q hq hnd hreq

/-- Witness for C1 on the seed stock lines: 7 laptops are drawn across
    warehouses (5 + 2 remaining after Tokyo and the next line), the plan sums
    to 7, and failure would occur exactly below total availability. -/
theorem allocateStock_spec_witness :
    (∀ s ∈ sampleState.stocks, 0 ≤ s.quantity) ∧ (0:ℤ) < 7 ∧
    (allocateStock sampleState.stocks 1 7).1 = true ∧
    planSum (allocateStock sampleState.stocks 1 7).2.1 = 7 ∧
    ((allocateStock sampleState.stocks 1 7).1 = false ↔
      totalAvailable sampleState.stocks 1 < 7) := by
  have h := allocateStock_spec sampleState.stocks 1 7 (by decide) (by decide) (by decide)
  exact ⟨by decide, by decide, by decide, (h.1 (by decide)).1, h.2.2⟩

/-- C7 (amended): the per-warehouse plan of `allocateStock` depends on the
    enumeration order of the stock map, which Go leaves unspecified (see the
    counterexample), so two runs from identical stock states need not return
    the same plan; what is deterministic across enumeration orders is the
    success/failure outcome, and every successful plan draws exactly the
    required quantity. -/
theorem allocateStock_perm_agree (l1 l2 : List Stock) (p q : ℤ)
    (hperm : l1.Perm l2)
    (hq1 : ∀ s ∈ l1, 0 ≤ s.quantity)
    (hnd1 : (l1.map fun s => (s.productID, s.warehouseID)).Nodup)
    (hreq : 0 < q) :
    (allocateStock l1 p q).1 = (allocateStock l2 p q).1 ∧
    ((allocateStock l1 p q).1 = true →
      planSum (allocateStock l1 p q).2.1 = q ∧
      planSum (allocateStock l2 p q).2.1 = q) := by
  have hq2 : ∀ s ∈ l2, 0 ≤ s.quantity := fun s hs => hq1 s (hperm.mem_iff.mpr hs)
  have hnd2 : (l2.map fun s => (s.productID, s.warehouseID)).Nodup :=
    ((hperm.map _).nodup_iff).mp hnd1
  have htot : totalAvailable l1 p = totalAvailable l2 p := by
    unfold totalAvailable
    exact ((hperm.filter _).map _).sum_eq
  have h1 := allocateStock_correct l1 p q hq1 hnd1 hreq
  have h2 := allocateStock_correct l2 p q hq2 hnd2 hreq
  have hflag : (allocateStock l1 p q).1 = (allocateStock l2 p q).1 := by
    by_cases hc : totalAvailable l1 p < q
    · rw [h1.2.2.mpr hc, h2.2.2.mpr (htot ▸ hc)]
    · have hn1 : ¬ (allocateStock l1 p q).1 = false := fun h => hc (h1.2.2.mp h)
      have hn2 : ¬ (allocateStock l2 p q).1 = false := fun h => hc (htot ▸ h2.2.2.mp h)
      rw [Bool.not_eq_false] at hn1 hn2
      rw [hn1, hn2]
  refine ⟨hflag, fun htrue => ⟨(h1.1 htrue).1, (h2.1 (hflag ▸ htrue)).1⟩⟩

/-- Witness for the amended C7: the two orders of the two-line stock state
    both succeed and both plans draw exactly 3 units. -/
theorem allocateStock_perm_agree_witness :
    ([⟨1, 1, 5⟩, ⟨1, 2, 5⟩] : List Stock).Perm [⟨1, 2, 5⟩, ⟨1, 1, 5⟩] ∧
    (allocateStock [⟨1, 1, 5⟩, ⟨1, 2, 5⟩] 1 3).1 =
      (allocateStock [⟨1, 2, 5⟩, ⟨1, 1, 5⟩] 1 3).1 ∧
    planSum (allocateStock [⟨1, 1, 5⟩, ⟨1, 2, 5⟩] 1 3).2.1 = 3 ∧
    planSum (allocateStock [⟨1, 2, 5⟩, ⟨1, 1, 5⟩] 1 3).2.1 = 3 := by
  have h := allocateStock_perm_agree [⟨1, 1, 5⟩, ⟨1, 2, 5⟩] [⟨1, 2, 5⟩, ⟨1, 1, 5⟩] 1 3
    (by decide) (by decide) (by decide) (by decide)
  exact ⟨by decide, h.1, (h.2 (by decide)).1, (h.2 (by decide)).2⟩

theorem validateItems_error_form (st : AppState) :
    ∀ items acc e, validateItems st items acc = .error e →
      ∃ status msg, e = HandlerResponse.errorResp status msg ∧
        400 ≤ status ∧ status < 500 := by
  intro items
  induction items with
  | nil =>
    intro acc e h
    simp only [validateItems] at h
    cases h
  | cons item rest ih =>
    intro acc e h
    simp only [validateItems] at h
    by_cases h1 : item.quantity ≤ 0
    · rw [if_pos h1] at h
      injection h with he
      exact ⟨400, _, he.symm, by norm_num, by norm_num⟩
    · rw [if_neg h1] at h
      cases hfind : st.products.find? fun pr => pr.id == item.productID with
      | none =>
        rw [hfind] at h
        injection h with he
        exact ⟨404, _, he.symm, by norm_num, by norm_num⟩
      | some product =>
        rw [hfind] at h
        dsimp only at h
        by_cases h2 : getProductStock st product.id < item.quantity
        · rw [if_pos h2] at h
          injection h with he
          exact ⟨400, _, he.symm, by norm_num, by norm_num⟩
        · rw [if_neg h2] at h
          exact ih _ _ h

theorem validateItems_ok_items (st : AppState) :
    ∀ items acc subtotal, validateItems st items acc = .ok subtotal →
      ∀ i ∈ items, ¬ i.quantity ≤ 0 ∧
        st.products.find? (fun pr => pr.id == i.productID) ≠ none := by
  intro items
  induction items with
  | nil =>
    intro acc subtotal _ i hi
    simp at hi
  | cons item rest ih =>
    intro acc subtotal h i hi
    simp only [validateItems] at h
    by_cases h1 : item.quantity ≤ 0
    · rw [if_pos h1] at h; cases h
    · rw [if_neg h1] at h
      cases hfind : st.products.find? fun pr => pr.id == item.productID with
      | none => rw [hfind] at h; cases h
      | some product =>
        rw [hfind] at h
        dsimp only at h
        by_cases h2 : getProductStock st product.id < item.quantity
        · rw [if_pos h2] at h; cases h
        · rw [if_neg h2] at h
          rcases List.mem_cons.mp hi with heq | hmem
          · subst heq
            exact ⟨h1, by rw [hfind]; simp⟩
          · exact ih _ _ h i hmem

/-- C6: a checkout request failing validation — empty cart, nonpositive
    quantity, unknown product, unknown coupon code, or requested points above
    the current balance — is answered with a client error (4xx) and the
    entire state is unchanged: no order record, no stock change, no balance
    change. -/
theorem client_error_no_mutation (gw : ℤ → ℤ → PaymentResult) (st : AppState)
    (userID : ℤ) (req : CheckoutRequest)
    (hbad : req.items = [] ∨ (∃ i ∈ req.items, i.quantity ≤ 0) ∨
      (∃ i ∈ req.items, st.products.find? (fun pr => pr.id == i.productID) = none) ∨
      (req.couponCode ≠ "" ∧
        st.coupons.find? (fun c => c.code == req.couponCode) = none) ∨
      (∃ u, findUser st userID = some u ∧ req.usePoints > u.currentPoints)) :
    (∃ status msg, (createOrderHandler gw st userID req).1 =
      HandlerResponse.errorResp status msg ∧ 400 ≤ status ∧ status < 500) ∧
    (createOrderHandler gw st userID req).2 = st := by
  unfold createOrderHandler
  cases hfind : findUser st userID with
  | none =>
    exact ⟨⟨401, "Unauthorized", rfl, by norm_num, by norm_num⟩, rfl⟩
  | some user =>
    dsimp only
    by_cases h1 : req.items = []
    · rw [if_pos h1]
      exact ⟨⟨400, "No items in order", rfl, by norm_num, by norm_num⟩, rfl⟩
    · rw [if_neg h1]
      by_cases h2 : req.usePoints < 0
      · rw [if_pos h2]
        exact ⟨⟨400, "Invalid use_points value", rfl, by norm_num, by norm_num⟩, rfl⟩
      · rw [if_neg h2]
        by_cases h3 : req.usePoints > user.currentPoints
        · rw [if_pos h3]
          exact ⟨⟨400, "Insufficient points", rfl, by norm_num, by norm_num⟩, rfl⟩
        · rw [if_neg h3]
          cases hlc : lookupCoupon st req.couponCode with
          | error e =>
            dsimp only
            have he : e = HandlerResponse.errorResp 400 "Invalid coupon code" := by
              unfold lookupCoupon at hlc
              split_ifs at hlc with hcc
              cases hf : st.coupons.find? fun c => c.code == req.couponCode with
              | none => rw [hf] at hlc; injection hlc with h4; exact h4.symm
              | some c => rw [hf] at hlc; cases hlc
            subst he
            exact ⟨⟨400, "Invalid coupon code", rfl, by norm_num, by norm_num⟩, rfl⟩
          | ok coupon =>
            dsimp only
            cases hvi : validateItems st req.items 0 with
            | error e =>
              dsimp only
              obtain ⟨status, msg, he, hlo, hhi⟩ :=
                validateItems_error_form st req.items 0 e hvi
              subst he
              exact ⟨⟨status, msg, rfl, hlo, hhi⟩, rfl⟩
            | ok subtotal =>
              exfalso
              rcases hbad with h | ⟨i, hi, hqty⟩ | ⟨i, hi, hnone⟩ | ⟨hcc, hcnone⟩ |
                ⟨u, hu, hover⟩
              · exact h1 h
              · exact (validateItems_ok_items st req.items 0 subtotal hvi i hi).1 hqty
              · exact (validateItems_ok_items st req.items 0 subtotal hvi i hi).2 hnone
              · have hcontra : lookupCoupon st req.couponCode =
                    .error (.errorResp 400 "Invalid coupon code") := by
                  simp [lookupCoupon, hcc, hcnone]
                rw [hlc] at hcontra
                cases hcontra
              · rw [hu] at hfind
                injection hfind with h4
                subst h4
                exact h3 hover

theorem find?_setUserPoints (users : List UserRec) (uid newBal : ℤ) :
    (setUserPoints users uid newBal).find? (fun v => v.id == uid) =
      (users.find? fun v => v.id == uid).map
        fun u => { u with currentPoints := newBal } := by
  simp only [setUserPoints]
  rw [List.find?_map]
  have hfun : ((fun v : UserRec => v.id == uid) ∘
      fun v => if v.id == uid then { v with currentPoints := newBal } else v) =
      fun v : UserRec => v.id == uid := by
    funext v
    simp only [Function.comp, beq_iff_eq]
    by_cases hv : v.id = uid <;> simp [hv]
  rw [hfun]
  cases hf : List.find? (fun v => v.id == uid) users with
  | none => simp
  | some u =>
    have hpred := List.find?_some hf
    simp only [Option.map, beq_iff_eq] at hpred ⊢
    rw [if_pos hpred]

/-- C3: when the payment gateway declines, the handler leaves every stock
    line untouched, restores the user's point balance (rolling back the
    optimistic debit), and persists exactly one order with status
    "payment_failed" carrying the computed coupon discount, rank discount,
    used points and earned points (the fields of `mkOrder`). -/
theorem payment_declined_frame (gw : ℤ → ℤ → PaymentResult) (st : AppState)
    (userID : ℤ) (req : CheckoutRequest) (user : UserRec) (coupon : Option Coupon)
    (subtotal : ℤ)
    (hfind : findUser st userID = some user)
    (h1 : ¬ req.items = [])
    (h2 : ¬ req.usePoints < 0)
    (h3 : ¬ req.usePoints > user.currentPoints)
    (hlc : lookupCoupon st req.couponCode = .ok coupon)
    (hvi : validateItems st req.items 0 = .ok subtotal)
    (hgw : ∀ a oid, (gw a oid).success = false) :
    (createOrderHandler gw st userID req).2.stocks = st.stocks ∧
    findUser (createOrderHandler gw st userID req).2 userID = some user ∧
    (∃ msg, (createOrderHandler gw st userID req).1 =
      HandlerResponse.errorResp 402 msg) ∧
    (createOrderHandler gw st userID req).2.orders = st.orders ++
      [mkOrder userID req
        (computePricing subtotal user.memberRank coupon req.usePoints)
        st.nextOrderID "payment_failed"] := by
  unfold createOrderHandler
  rw [hfind]
  dsimp only
  rw [if_neg h1, if_neg h2, if_neg h3, hlc]
  dsimp only
  rw [hvi]
  dsimp only
  by_cases hup : req.usePoints > 0
  · rw [if_pos hup]
    have hupts : usePoints st userID st.nextOrderID req.usePoints =
        (true, appendHistory { st with users := setUserPoints st.users userID (user.currentPoints - req.usePoints) } userID st.nextOrderID "used" req.usePoints (user.currentPoints - req.usePoints)) := by
      unfold usePoints
      rw [hfind]
      dsimp only
      rw [if_pos (show user.currentPoints ≥ req.usePoints by omega)]
    rw [hupts]
    dsimp only
    rw [if_pos rfl]
    unfold finishOrder
    simp only [hgw, Bool.false_eq_true, if_false, if_true]
    have hfa : findUser (appendHistory { st with users := setUserPoints st.users userID (user.currentPoints - req.usePoints) } userID st.nextOrderID "used" req.usePoints (user.currentPoints - req.usePoints)) userID = some { user with currentPoints := user.currentPoints - req.usePoints } := by
      unfold findUser appendHistory
      dsimp only
      rw [find?_setUserPoints]
      unfold findUser at hfind
      rw [hfind]
      rfl
    unfold rollbackPoints
    rw [hfa]
    dsimp only
    refine ⟨rfl, ?_, ⟨_, rfl⟩, rfl⟩
    unfold findUser persistOrder appendHistory
    dsimp only
    rw [find?_setUserPoints, find?_setUserPoints]
    unfold findUser at hfind
    rw [hfind]
    dsimp only [Option.map]
    have harith : user.currentPoints - req.usePoints + req.usePoints =
        user.currentPoints := by ring
    rw [harith]
  · rw [if_neg hup]
    unfold finishOrder
    simp only [hgw, Bool.false_eq_true, if_false]
    refine ⟨rfl, ?_, ⟨_, rfl⟩, rfl⟩
    exact hfind

/-- C10: when payment succeeded but a later line item's allocation fails, the
    handler records the order as "payment_failed" and rolls back the points
    debit, but the stock decrements already committed for the earlier line
    items are kept: the final stock lines are exactly the partially-committed
    ones, with no restoration. -/
theorem partial_allocation_no_restock (gw : ℤ → ℤ → PaymentResult) (st : AppState)
    (userID : ℤ) (req : CheckoutRequest) (user : UserRec) (coupon : Option Coupon)
    (subtotal : ℤ)
    (hfind : findUser st userID = some user)
    (h1 : ¬ req.items = [])
    (h2 : ¬ req.usePoints < 0)
    (h3 : ¬ req.usePoints > user.currentPoints)
    (hlc : lookupCoupon st req.couponCode = .ok coupon)
    (hvi : validateItems st req.items 0 = .ok subtotal)
    (hgw : ∀ a oid, (gw a oid).success = true)
    (halloc : (allocateItems st.stocks req.items).1 = false) :
    (createOrderHandler gw st userID req).2.stocks =
      (allocateItems st.stocks req.items).2 ∧
    findUser (createOrderHandler gw st userID req).2 userID = some user ∧
    (createOrderHandler gw st userID req).1 =
      HandlerResponse.errorResp 409 "Stock allocation failed. Please retry." ∧
    (createOrderHandler gw st userID req).2.orders = st.orders ++
      [mkOrder userID req
        (computePricing subtotal user.memberRank coupon req.usePoints)
        st.nextOrderID "payment_failed"] := by
  unfold createOrderHandler
  rw [hfind]
  dsimp only
  rw [if_neg h1, if_neg h2, if_neg h3, hlc]
  dsimp only
  rw [hvi]
  dsimp only
  by_cases hup : req.usePoints > 0
  · rw [if_pos hup]
    have hupts : usePoints st userID st.nextOrderID req.usePoints =
        (true, appendHistory { st with users := setUserPoints st.users userID (user.currentPoints - req.usePoints) } userID st.nextOrderID "used" req.usePoints (user.currentPoints - req.usePoints)) := by
      unfold usePoints
      rw [hfind]
      dsimp only
      rw [if_pos (show user.currentPoints ≥ req.usePoints by omega)]
    rw [hupts]
    dsimp only
    rw [if_pos rfl]
    unfold finishOrder
    simp only [hgw, if_true]
    dsimp only [appendHistory]
    rw [halloc]
    simp only [Bool.false_eq_true, if_false, if_true]
    unfold rollbackPoints findUser
    dsimp only
    rw [find?_setUserPoints]
    have hfind' : List.find? (fun v => v.id == userID) st.users = some user := hfind
    rw [hfind']
    dsimp only [Option.map]
    refine ⟨by trivial, ?_, by trivial, by trivial⟩
    unfold persistOrder
    dsimp only [appendHistory]
    rw [find?_setUserPoints, find?_setUserPoints, hfind']
    dsimp only [Option.map]
    have harith : user.currentPoints - req.usePoints + req.usePoints =
        user.currentPoints := by ring
    rw [harith]
  · rw [if_neg hup]
    unfold finishOrder
    simp only [hgw, if_true]
    rw [halloc]
    simp only [Bool.false_eq_true, if_false]
    refine ⟨by trivial, ?_, by trivial, by trivial⟩
    exact hfind

/-- The seed state with one ordinary user holding 500 points. -/
def pointsState : AppState := { sampleState with users := [⟨1, 500, 0, "Normal"⟩] }

/-- Witness for C8: with balance 500, using 200 points succeeds. -/
theorem usePoints_spec_witness :
    findUser pointsState 1 = some ⟨1, 500, 0, "Normal"⟩ ∧ (0:ℤ) ≤ 200 ∧
    ((usePoints pointsState 1 1 200).1 = true ↔ (200:ℤ) ≤ 500) := by
  have h := usePoints_spec pointsState ⟨1, 500, 0, "Normal"⟩ 1 200 rfl (by norm_num)
  exact ⟨rfl, by norm_num, h.1⟩

/-- Witness for C6: an unknown coupon code is rejected with a 4xx response
    and the state is returned untouched. -/
theorem client_error_no_mutation_witness :
    (∃ status msg,
      (createOrderHandler (fun _ _ => ⟨false, "", "declined"⟩) sampleState 1
        ⟨[⟨2, 1⟩], "NOPE", 0⟩).1 = HandlerResponse.errorResp status msg ∧
        400 ≤ status ∧ status < 500) ∧
    (createOrderHandler (fun _ _ => ⟨false, "", "declined"⟩) sampleState 1
      ⟨[⟨2, 1⟩], "NOPE", 0⟩).2 = sampleState :=
  client_error_no_mutation _ sampleState 1 _
    (Or.inr (Or.inr (Or.inr (Or.inl ⟨by decide, by rfl⟩))))

/-- Witness for C3: a declined payment for one mouse with 100 points
    requested leaves the stock lines and the user (balance 500) unchanged
    and answers 402. -/
theorem payment_declined_frame_witness :
    (createOrderHandler (fun _ _ => ⟨false, "", "Card declined"⟩) pointsState 1
      ⟨[⟨2, 1⟩], "", 100⟩).2.stocks = pointsState.stocks ∧
    findUser (createOrderHandler (fun _ _ => ⟨false, "", "Card declined"⟩)
      pointsState 1 ⟨[⟨2, 1⟩], "", 100⟩).2 1 = some ⟨1, 500, 0, "Normal"⟩ ∧
    (∃ msg, (createOrderHandler (fun _ _ => ⟨false, "", "Card declined"⟩)
      pointsState 1 ⟨[⟨2, 1⟩], "", 100⟩).1 = HandlerResponse.errorResp 402 msg) := by
  have h := payment_declined_frame (fun _ _ => ⟨false, "", "Card declined"⟩)
    pointsState 1 ⟨[⟨2, 1⟩], "", 100⟩ ⟨1, 500, 0, "Normal"⟩ none 3000
    rfl (by decide) (by decide) (by decide) rfl rfl (fun _ _ => rfl)
  exact ⟨h.1, h.2.1, h.2.2.1⟩

/-- Witness for C10: ordering the desk's total stock twice in one cart
    passes validation, payment succeeds, the first line item's decrements
    commit, the second fails — the committed decrements are kept (the final
    stock lines differ from the initial ones) and the order is answered
    409. -/
theorem partial_allocation_no_restock_witness :
    (createOrderHandler (fun _ _ => ⟨true, "TXN", "ok"⟩) pointsState 1
      ⟨[⟨3, 5⟩, ⟨3, 5⟩], "", 0⟩).2.stocks =
      (allocateItems pointsState.stocks [⟨3, 5⟩, ⟨3, 5⟩]).2 ∧
    (allocateItems pointsState.stocks [⟨3, 5⟩, ⟨3, 5⟩]).2 ≠ pointsState.stocks ∧
    (createOrderHandler (fun _ _ => ⟨true, "TXN", "ok"⟩) pointsState 1
      ⟨[⟨3, 5⟩, ⟨3, 5⟩], "", 0⟩).1 =
      HandlerResponse.errorResp 409 "Stock allocation failed. Please retry." := by
  have h := partial_allocation_no_restock (fun _ _ => ⟨true, "TXN", "ok"⟩)
    pointsState 1 ⟨[⟨3, 5⟩, ⟨3, 5⟩], "", 0⟩ ⟨1, 500, 0, "Normal"⟩ none 250000
    rfl (by decide) (by decide) (by decide) rfl rfl (fun _ _ => rfl) (by decide)
  exact ⟨h.1, by decide, h.2.2.1⟩
